import Mathlib

/-!
# Verification of the suzent request-processing core

A shallow embedding of the core components of the suzent server, translated from
the Python sources under `src/suzent/`, together with theorems settling the
frozen specification claims about them.

Python strings are modelled as lists of characters (`PyStr`), so that
slicing, prefix tests and truncation can be reasoned about directly.
Machine-level concerns (UTF-8 byte layout, float formatting) are outside the
logical content of the claims and are modelled at the character level.
-/

set_option maxHeartbeats 2000000

namespace Suzent

/-- Python `str` modelled as a list of characters. -/
abbrev PyStr := List Char

/-- Whitespace set of Python `str.strip()` (ASCII portion): space, tab,
newline, carriage return, vertical tab, form feed. -/
def isPyWhitespace (c : Char) : Bool :=
  c = ' ' || c = '\t' || c = '\n' || c = '\r' || c = '\x0b' || c = '\x0c'

/-- Python `s.strip()`: drop whitespace from both ends. -/
def pyStrip (s : PyStr) : PyStr :=
  ((s.dropWhile isPyWhitespace).reverse.dropWhile isPyWhitespace).reverse

/-- Python `sep.join`-style splitting: `s.split(c)`, keeping empty pieces. -/
def pySplitOn (c : Char) : PyStr → List PyStr
  | [] => [[]]
  | x :: xs =>
    let r := pySplitOn c xs
    if x = c then [] :: r
    else
      match r with
      | h :: t => (x :: h) :: t
      | [] => [[x]]

-- ──────────────────────────────────────────────────────────────────────
-- Heartbeat (src/suzent/core/heartbeat.py)
-- ──────────────────────────────────────────────────────────────────────

/-- The sentinel `HEARTBEAT_OK` from `core/heartbeat.py`. -/
def HEARTBEAT_OK : PyStr := "HEARTBEAT_OK".toList

/-- Model of `HeartbeatRunner._is_heartbeat_ok` (heartbeat.py lines 253-266):
empty or exact-sentinel responses are OK; otherwise the sentinel must be a
prefix or (failing that) a suffix, and the rest, whitespace-stripped, must
be at most 300 characters.  `response[len(OK):]` is `drop`,
`response[:-len(OK)]` is `take (length - len(OK))`. -/
def is_heartbeat_ok (response : PyStr) : Bool :=
  if response = [] || response = HEARTBEAT_OK then true
  else if HEARTBEAT_OK.isPrefixOf response then
    (pyStrip (response.drop HEARTBEAT_OK.length)).length ≤ 300
  else if HEARTBEAT_OK.isSuffixOf response then
    (pyStrip (response.take (response.length - HEARTBEAT_OK.length))).length ≤ 300
  else false

/-- Model of `HeartbeatRunner._tick` notification decision (heartbeat.py lines
167-180): if `_is_heartbeat_ok` the response is recorded and ignored;
otherwise the response is handed to the callback when one is set and the
response is nonempty. -/
def tick_notification (response : PyStr) (hasCallback : Bool) : Option PyStr :=
  if is_heartbeat_ok response then none
  else if hasCallback && response ≠ [] then some response
  else none

/-- The acceptance condition of the claim, written from its words: the
response is exactly `HEARTBEAT_OK`, or that token with at most 300
trailing/leading characters of filler. -/
def claimHeartbeatOk (r : PyStr) : Prop :=
  r = HEARTBEAT_OK ∨
    (∃ t, r = HEARTBEAT_OK ++ t ∧ t.length ≤ 300) ∨
    (∃ p, r = p ++ HEARTBEAT_OK ∧ p.length ≤ 300)

-- ──────────────────────────────────────────────────────────────────────
-- Agent state codec (src/suzent/core/agent_serializer.py)
-- ──────────────────────────────────────────────────────────────────────

/-- A smolagents `ToolCall` as serialized: name, arguments, id.  Arguments
are carried opaquely (the codec passes them through unchanged in both
directions). -/
structure ToolCallRec where
  name : String
  arguments : String
  id : String
deriving DecidableEq, Repr

/-- A smolagents memory step: the four step kinds handled by
`_serialize_steps` / `_deserialize_steps`.  Fields that the codec slices
(`observations`, `action_output`, final-answer `output`) are `PyStr`. -/
inductive AgentStep where
  | action (step_number : Nat) (tool_calls : Option (List ToolCallRec))
      (model_output : Option String) (code_action : Option String)
      (observations : Option PyStr) (action_output : Option PyStr)
      (is_final_answer : Bool)
  | planning (plan : String)
  | task (task : String)
  | final_answer (output : Option PyStr)
deriving DecidableEq, Repr

/-- The JSON-safe step dict produced by `_serialize_steps`.  The shape
mirrors the tagged dicts of agent_serializer.py; `json.dumps`/`json.loads`
is the identity on these JSON-safe records, so the JSON byte layer is not
modelled separately. -/
inductive StepDict where
  | action (step_number : Nat) (tool_calls : Option (List ToolCallRec))
      (model_output : Option String) (code_action : Option String)
      (observations : Option PyStr) (action_output : Option PyStr)
      (is_final_answer : Bool)
  | planning (plan : String)
  | task (task : String)
  | final_answer (output : Option PyStr)
deriving DecidableEq, Repr

/-- One step of `_serialize_steps` (agent_serializer.py lines 27-109).
Python truthiness: `if step.tool_calls` drops both `None` and `[]`;
`if step.observations` drops both `None` and `""`; `str(x)[:4000]` and
`str(x)[:2000]` are `take`. `action_output` is kept when it `is not None`,
so an empty string survives there. -/
def serialize_step : AgentStep → StepDict
  | .action n tc mo ca obs ao fin =>
    .action n
      (match tc with
        | some l => if l = [] then none else some l
        | none => none)
      mo ca
      (match obs with
        | some o => if o = [] then none else some (o.take 4000)
        | none => none)
      (match ao with
        | some a => some (a.take 2000)
        | none => none)
      fin
  | .planning p => .planning p
  | .task t => .task t
  | .final_answer out =>
    .final_answer
      (match out with
        | some o => some (o.take 2000)
        | none => none)

/-- One step of `_deserialize_steps` (agent_serializer.py lines 112-178):
every field of the tagged dict is rebuilt into the matching step object
(`timing` is synthetic and carries no logical content). -/
def deserialize_step : StepDict → AgentStep
  | .action n tc mo ca obs ao fin => .action n tc mo ca obs ao fin
  | .planning p => .planning p
  | .task t => .task t
  | .final_answer out => .final_answer out

def serialize_steps (steps : List AgentStep) : List StepDict :=
  steps.map serialize_step

def deserialize_steps (ds : List StepDict) : List AgentStep :=
  ds.map deserialize_step

/-- The slice of a smolagents `CodeAgent` that the codec touches. -/
structure Agent where
  model_id : Option String
  instructions : Option String
  step_number : Nat
  max_steps : Nat
  tool_names : List String
  steps : List AgentStep
deriving DecidableEq, Repr

/-- Dedup loop of `_extract_tool_names`: keep the first occurrence of each
tool class name. -/
def extract_tool_names (names : List String) : List String :=
  names.foldl (fun acc n => if n ∈ acc then acc else acc ++ [n]) []

/-- The JSON v2 state document (`STATE_FORMAT_VERSION = 2`). -/
structure StateV2 where
  version : Nat
  model_id : Option String
  instructions : Option String
  step_number : Nat
  max_steps : Nat
  tool_names : List String
  steps : List StepDict
deriving DecidableEq, Repr

/-- Model of `serialize_agent` (agent_serializer.py lines 214-245), JSON path.  On
the typed state no serialization exception can occur, so the pickle
fallback is not reachable here. -/
def serialize_agent (a : Agent) : StateV2 :=
  { version := 2
    model_id := a.model_id
    instructions := a.instructions
    step_number := a.step_number
    max_steps := a.max_steps
    tool_names := extract_tool_names a.tool_names
    steps := serialize_steps a.steps }

/-- Model of `_restore_from_json` (agent_serializer.py lines 313-339): build a fresh
agent from the current configuration, then overwrite only `memory.steps`
(when the serialized list is nonempty), `step_number` and `max_steps`.
The recorded `model_id`, `instructions` and `tool_names` are never read. -/
def restore_from_json (state : StateV2) (fresh : Agent) : Agent :=
  { fresh with
    steps := if state.steps = [] then fresh.steps else deserialize_steps state.steps
    step_number := state.step_number
    max_steps := state.max_steps }

/-- Model of `deserialize_agent ∘ serialize_agent` with an agent builder producing
`fresh`: the v2 state always passes the `version == 2` check, so the JSON
branch is taken. -/
def codec_round_trip (a fresh : Agent) : Agent :=
  restore_from_json (serialize_agent a) fresh

/-- A step whose encoding is not lossy: tool-call lists and observations
are absent rather than empty (Python truthiness sends `[]` and `""` to
`None`), and the sliced fields fit their `[:4000]` / `[:2000]` bounds. -/
def step_wf : AgentStep → Bool
  | .action _ tc _ _ obs ao _ =>
    decide (tc ≠ some []) && decide (obs ≠ some []) &&
      (match obs with | some o => decide (o.length ≤ 4000) | none => true) &&
      (match ao with | some a => decide (a.length ≤ 2000) | none => true)
  | .final_answer out =>
    (match out with | some o => decide (o.length ≤ 2000) | none => true)
  | .planning _ => true
  | .task _ => true

/-- Python exception classes relevant to the embedded control flow. -/
inductive PyExc where
  | typeError
  | attributeError
  | unpicklingError
  | eofError
  | valueError
  | importError
  | connectionError
  | timeoutError
  | otherExc (name : String)
deriving DecidableEq, Repr

/-- Outcome of `json.loads(agent_data.decode("utf-8"))` on a blob.  The
stdlib decoder is a collaborator; only the distinctions the source branches
on are modelled: a dict with `version == 2` (rehydrated as `StateV2`), any
other JSON value, or a `JSONDecodeError`/`UnicodeDecodeError`. -/
inductive JsonOutcome where
  | v2dict (st : StateV2)
  | otherValue
  | decodeError
deriving DecidableEq, Repr

/-- Outcome of `pickle.loads(agent_data)`: a dict, some non-dict value, or
an exception of the given class. -/
inductive PickleOutcome where
  | dictValue (restoredSteps : List AgentStep) (step_number max_steps : Option Nat)
  | nonDictValue
  | raises (e : PyExc)
deriving DecidableEq, Repr

/-- A byte blob, characterized by what the two stdlib decoders do with it. -/
structure Blob where
  isEmpty : Bool
  json : JsonOutcome
  pickle : PickleOutcome
deriving DecidableEq, Repr

/-- The exception classes caught around `pickle.loads` in
`deserialize_agent` (agent_serializer.py line 299):
`(TypeError, AttributeError, pickle.UnpicklingError)`. -/
def caughtByUnpickle (e : PyExc) : Bool :=
  e = .typeError || e = .attributeError || e = .unpicklingError

/-- Model of `_restore_from_pickle` (agent_serializer.py lines 342-361): overwrite
memory / step_number / max_steps from the legacy dict when present; any
exception is caught and `None` returned (not reachable on this model). -/
def restore_from_pickle (p : List AgentStep) (sn ms : Option Nat) (fresh : Agent) : Agent :=
  { fresh with
    steps := p
    step_number := sn.getD fresh.step_number
    max_steps := ms.getD fresh.max_steps }

/-- Model of `deserialize_agent` (agent_serializer.py lines 277-307).  Returns
`Except.error e` when a Python exception of class `e` escapes the
function.  The JSON try block catches only `JSONDecodeError` and
`UnicodeDecodeError`; the pickle try block catches only `TypeError`,
`AttributeError` and `pickle.UnpicklingError` — any other exception from
`pickle.loads` (e.g. `EOFError` on a truncated pickle) propagates. -/
def deserialize_agent (b : Blob) (fresh : Agent) : Except PyExc (Option Agent) :=
  if b.isEmpty then .ok none
  else
    match b.json with
    | .v2dict st => .ok (some (restore_from_json st fresh))
    | _ =>
      -- non-v2 JSON values fall through to the pickle branch, as do decode errors
      match b.pickle with
      | .raises e => if caughtByUnpickle e then .ok none else .error e
      | .nonDictValue => .ok none
      | .dictValue p sn ms => .ok (some (restore_from_pickle p sn ms fresh))

-- ──────────────────────────────────────────────────────────────────────
-- Context compressor (src/suzent/core/context_compressor.py)
-- ──────────────────────────────────────────────────────────────────────

/-- Model of `keep_recent_count = max(5, int(self.max_history_steps * 0.25))`
(context_compressor.py line 133).  `0.25` is an exact binary float, so
`int(n * 0.25)` is exactly `n / 4` (floor) for the integer field. -/
def keep_recent_count (max_history_steps : Nat) : Nat :=
  max 5 (max_history_steps / 4)

/-- Model of `ContextCompressor._should_compress` (context_compressor.py lines
97-118): step count over the limit, else (when a monitor is attached)
total token count over the limit. -/
def should_compress (numSteps max_history_steps : Nat)
    (monitorTokens : Option Nat) (max_context_tokens : Nat) : Bool :=
  if numSteps > max_history_steps then true
  else
    match monitorTokens with
    | some total => total > max_context_tokens
    | none => false

/-- The synthetic summary step built in `_perform_compression`
(context_compressor.py lines 162-177): an `ActionStep` numbered
`len(steps)` carrying the `system_context_manager` tool call and the
wrapped summary as `action_output`. -/
def summary_step (oldLen : Nat) (summary : PyStr) : AgentStep :=
  .action oldLen
    (some [⟨"system_context_manager", "action=read_archived_history",
            "context_compression_event"⟩])
    none none none
    (some ("--- ARCHIVED CONTEXT SUMMARY ---\n".toList ++ summary
            ++ "\n--- END ARCHIVED CONTEXT ---".toList))
    false

/-- Model of `ContextCompressor._perform_compression` (context_compressor.py lines
120-186).  `summary` is the LLM reply (`none` models a falsy reply, which
aborts).  Result `none` means "no compression happened" (the method
returned `False`); `some ns` is the rewritten step list on success:
`[steps[0], summary_step] + steps[end_index:]`. -/
def perform_compression (steps : List AgentStep) (max_history_steps : Nat)
    (summary : Option PyStr) : Option (List AgentStep) :=
  let keep := keep_recent_count max_history_steps
  if steps.length ≤ keep + 1 then none
  else
    let endIndex := steps.length - keep
    if endIndex ≤ 1 then none
    else
      match summary, steps with
      | none, _ => none
      | some _, [] => none
      | some s, s0 :: _ => some (s0 :: summary_step steps.length s :: steps.drop endIndex)

/-- Model of `ContextCompressor.compress_context` (context_compressor.py lines
68-95): empty histories and unmet triggers leave the memory unchanged and
return `False`; otherwise `_perform_compression` runs (exceptions there
also yield `False`, which the `summary = none` case covers). -/
def compress_context (steps : List AgentStep) (max_history_steps : Nat)
    (monitorTokens : Option Nat) (max_context_tokens : Nat)
    (summary : Option PyStr) : Bool × List AgentStep :=
  if steps = [] then (false, steps)
  else if ¬ should_compress steps.length max_history_steps monitorTokens max_context_tokens then
    (false, steps)
  else
    match perform_compression steps max_history_steps summary with
    | some ns => (true, ns)
    | none => (false, steps)

-- ──────────────────────────────────────────────────────────────────────
-- Scheduler (src/suzent/core/scheduler.py)
-- ──────────────────────────────────────────────────────────────────────

/-- A `cron_jobs` row as the scheduler reads and writes it.
Modelled from the spec: `suzent/database.py` is not under src/; the cron
data model of §3 gives the fields, and `update_cron_job_run_state` /
`update_cron_job` set exactly the keyword fields passed at each call site.
Times are minutes (the croniter granularity). -/
structure CronJobRow where
  active : Bool
  retry_count : Nat
  next_run_at : Option Nat
  last_run_at : Option Nat
  last_result : Option PyStr
  last_error : Option PyStr
deriving DecidableEq, Repr

inductive RunStatus where
  | running
  | success
  | error
deriving DecidableEq, Repr

/-- A `cron_runs` row.  Modelled from the spec (§3): status, result and
error; `finish_cron_run` overwrites the status and sets the fields it is
given. -/
structure RunRow where
  status : RunStatus
  result : Option PyStr
  error : Option PyStr
deriving DecidableEq, Repr

/-- One SSE chunk as `_run_chat_turn` classifies it: a decodable
`final_answer` or `error` event, or anything else (non-`data:` chunks,
undecodable JSON, other event kinds), which the loop skips. -/
inductive TurnEvent where
  | final_answer (content : PyStr)
  | error_event (content : PyStr)
  | otherChunk
deriving DecidableEq, Repr

/-- The chunk loop of `SchedulerBrain._run_chat_turn` (scheduler.py lines
180-204): accumulate the last `final_answer` as `full_response`; on an
`error` event record it and return `""` immediately; at stream end return
`full_response.strip()`.  Result: `(response, recorded error if any)`. -/
def run_chat_turn_loop : PyStr → List TurnEvent → PyStr × Option PyStr
  | full, [] => (pyStrip full, none)
  | _, .final_answer c :: rest => run_chat_turn_loop c rest
  | _, .error_event c :: _ => ([], some c)
  | full, .otherChunk :: rest => run_chat_turn_loop full rest

/-- Model of `SchedulerBrain._handle_retry` (scheduler.py lines 225-245):
exponential backoff below 5 retries, deactivation at 5.  `current_retry`
is the retry count of the job row as fetched at the start of
`_execute_job` (before it was reset to 0). -/
def handle_retry (j : CronJobRow) (current_retry : Nat) (now : Nat)
    (err : PyStr) : CronJobRow :=
  if current_retry < 5 then
    { j with
      last_error := some err
      next_run_at := some (now + 2 ^ current_retry)
      retry_count := current_retry + 1 }
  else
    { j with
      last_error := some ("Max retries exceeded: ".toList ++ err)
      active := false }

/-- How the turn behind a cron job ends: a consumed SSE stream, or an
exception raised out of `process_turn` / the chunk loop. -/
inductive TurnOutcome where
  | events (evs : List TurnEvent)
  | raisesExc (msg : PyStr)
deriving DecidableEq, Repr

/-- Result of one `_execute_job` call: the job row, the run row (when one
was opened), and any announce notifications pushed. -/
structure ExecResult where
  job : CronJobRow
  run : Option RunRow
  notifications : List PyStr
deriving DecidableEq, Repr

/-- Model of `str(response)[:500]` for the notification payload. -/
def notification_payload (resp : PyStr) : PyStr := resp.take 500

/-- Model of `SchedulerBrain._execute_job` (scheduler.py lines 119-167).
`cronNextResult` is what `croniter(job.cron_expr, now).get_next(datetime)`
returns (`none` models the expression raising).  Before the body runs the
schedule is advanced: `last_run_at = now`, `next_run_at = next`,
`retry_count = 0`.  On an exception from the turn, `_handle_retry` is
applied with the retry count fetched before that reset.  On a stream that
reported an `error` event, the loop already recorded `last_error` and
finished the run as an error; the caller then records `last_result = ""`
and finishes the run again as a success. -/
def execute_job (job : CronJobRow) (deliveryAnnounce streamActive : Bool)
    (now : Nat) (cronNextResult : Option Nat) (outcome : TurnOutcome) :
    ExecResult :=
  if !job.active || streamActive then ⟨job, none, []⟩
  else
    match cronNextResult with
    | none =>
      ⟨{ job with
          last_error := some "invalid cron expression".toList
          next_run_at := none
          active := false }, none, []⟩
    | some nxt =>
      let job1 := { job with
        last_run_at := some now
        next_run_at := some nxt
        retry_count := 0 }
      match outcome with
      | .raisesExc msg =>
        ⟨handle_retry job1 job.retry_count now msg,
          some ⟨.error, none, some msg⟩, []⟩
      | .events evs =>
        match run_chat_turn_loop [] evs with
        | (_, some errContent) =>
          -- SSE error event: the loop recorded the error and finished the
          -- run as an error, then the success epilogue overwrote the run
          -- status and stored the empty response.
          ⟨{ job1 with last_error := some errContent, last_result := some [] },
            some ⟨.success, some [], some errContent⟩, []⟩
        | (resp, none) =>
          ⟨{ job1 with last_result := some resp },
            some ⟨.success, some resp, none⟩,
            if deliveryAnnounce && resp ≠ [] then [notification_payload resp] else []⟩

/-- Contract of `croniter.get_next`: `next` is the first timestamp strictly
after `start` that the cron expression accepts. -/
def isFirstValidAfter (valid : Nat → Bool) (start nxt : Nat) : Prop :=
  valid nxt = true ∧ start < nxt ∧ ∀ t < nxt, start < t → valid t = false

instance (valid : Nat → Bool) (start nxt : Nat) :
    Decidable (isFirstValidAfter valid start nxt) := by
  unfold isFirstValidAfter; infer_instance

/-- An hourly schedule (`0 * * * *`): minute timestamps divisible by 60. -/
def hourlyValid (t : Nat) : Bool := t % 60 = 0

-- ──────────────────────────────────────────────────────────────────────
-- WebSocket node (src/suzent/nodes/ws_node.py)
-- ──────────────────────────────────────────────────────────────────────

/-- Model of `DEFAULT_INVOKE_TIMEOUT = 30.0` seconds (ws_node.py line 21). -/
def DEFAULT_INVOKE_TIMEOUT : Nat := 30

/-- The state an `asyncio.Future` created by `invoke` can be in. -/
inductive FutureState where
  | waiting
  | resolved (success : Bool) (result : Option String) (error : Option String)
  | failed (e : PyExc)
deriving DecidableEq, Repr

/-- The `WebSocketNode` state touched by the protocol: connection status,
every future created by `invoke` (keyed by `request_id`; an awaiting
`invoke` keeps its reference even after the pending map drops it), and the
ids currently in `self._pending`. -/
structure NodeState where
  statusConnected : Bool
  futures : List (String × FutureState)
  pending : List String
deriving DecidableEq, Repr

/-- An inbound WebSocket message as `handle_message` classifies it: a
`result` message (well-formed or not per the `ResultMessage(**data)`
validation), `pong`, `event`, or an unknown type. -/
inductive NodeMsg where
  | result (request_id : String) (wellFormed success : Bool)
      (res err : Option String)
  | pong
  | eventMsg
  | unknownType
deriving DecidableEq, Repr

/-- Model of `WebSocketNode.handle_message` (ws_node.py lines 107-143): only a
well-formed `result` whose `request_id` is pending resolves that one
future (if not already done); everything else is logged and dropped. -/
def handle_message (st : NodeState) (m : NodeMsg) : NodeState :=
  match m with
  | .result rid wf succ res err =>
    if ¬ wf then st
    else if rid ∈ st.pending then
      { st with
        futures := st.futures.map fun p =>
          if p.1 = rid ∧ p.2 = .waiting then (p.1, .resolved succ res err) else p }
    else st
  | _ => st

/-- Model of `WebSocketNode.close` (ws_node.py lines 145-157): mark disconnected,
fail every pending not-done future with `ConnectionError`, clear the
pending map. -/
def close_node (st : NodeState) : NodeState :=
  { statusConnected := false
    futures := st.futures.map fun p =>
      if p.1 ∈ st.pending ∧ p.2 = .waiting then (p.1, .failed .connectionError) else p
    pending := [] }

/-- Something that happens on the wire while an `invoke` waits, at an
absolute time in seconds. -/
inductive WireEvent where
  | msg (m : NodeMsg)
  | closeEvt
deriving DecidableEq, Repr

/-- How an `invoke` call ends. -/
inductive InvokeOutcome where
  | resolved (success : Bool) (result : Option String) (error : Option String)
  | timeoutErr
  | connError
deriving DecidableEq, Repr

/-- Model of `WebSocketNode.invoke` (ws_node.py lines 52-96), as seen by its
`asyncio.wait_for(future, DEFAULT_INVOKE_TIMEOUT)`: walk the wire events
in time order (all at times `≥ t0`); the first well-formed `result`
carrying exactly this `request_id` before the deadline resolves the
future; a `close` before the deadline fails it with `ConnectionError`
(propagated out of `wait_for`); if nothing decides it before `t0 +
timeout`, `asyncio.TimeoutError` fires and is re-raised as `Timeout`. -/
def invoke_outcome (rid : String) (t0 timeout : Nat) :
    List (Nat × WireEvent) → InvokeOutcome
  | [] => .timeoutErr
  | (t, e) :: rest =>
    if t0 + timeout ≤ t then .timeoutErr
    else
      match e with
      | .closeEvt => .connError
      | .msg (.result rid2 wf succ res err) =>
        if wf ∧ rid2 = rid then .resolved succ res err
        else invoke_outcome rid t0 timeout rest
      | .msg _ => invoke_outcome rid t0 timeout rest

-- ──────────────────────────────────────────────────────────────────────
-- Markdown memory store (src/suzent/memory/markdown_store.py) and
-- rebuild indexer (src/suzent/memory/indexer.py)
-- ──────────────────────────────────────────────────────────────────────

/-- A fact dict handed to `append_daily_log`: content, category,
importance, tags (importance is carried as the matched text; the writer
never reads it). -/
structure FactIn where
  content : PyStr
  category : PyStr
  importance : PyStr
  tags : List PyStr
deriving DecidableEq, Repr

/-- The separator `markdown_store.py` line 79 actually writes between the
time and the chat-id prefix: the bytes `C3 A2 E2 82 AC E2 80 9D` decoded
as the three characters U+00E2, U+20AC, U+201D (a mojibake em dash). -/
def headerSeparator : PyStr := ['â', '€', '”']

/-- The backtick character wrapping the tag list. -/
def backtickChar : Char := Char.ofNat 96

/-- One fact bullet as `append_daily_log` writes it (markdown_store.py
lines 81-87): `- [<category>] <content>` plus, when tags are present,
a space and the space-joined tags between backticks. -/
def render_fact_line (f : FactIn) : PyStr :=
  let tagStr :=
    if f.tags = [] then []
    else ' ' :: backtickChar :: (List.intercalate [' '] f.tags ++ [backtickChar])
  "- [".toList ++ f.category ++ "] ".toList ++ f.content ++ tagStr

/-- The lines list of one `append_daily_log` entry (markdown_store.py
line 79): a `\n## HH:MM <sep> <chat_id[:8]>\n` header line string followed
by one bullet per fact.  The entry written to the file is these joined
with `\n`, plus a trailing `\n`. -/
def render_entry (now chat_id : PyStr) (facts : List FactIn) : PyStr :=
  let header := '\n' :: "## ".toList ++ now ++ (' ' :: headerSeparator)
    ++ (' ' :: chat_id.take 8) ++ ['\n']
  (List.intercalate ['\n'] (header :: facts.map render_fact_line)) ++ ['\n']

/-- The whole daily-log file after a single `append_daily_log` to a fresh
file (markdown_store.py lines 91-99): the `# Daily Log - <date>\n` header
then the entry. -/
def daily_log_file (date now chat_id : PyStr) (facts : List FactIn) : PyStr :=
  "# Daily Log - ".toList ++ date ++ ['\n'] ++ render_entry now chat_id facts

/-- Model of `\w` of the parsing regexes (ASCII range): letters, digits,
underscore. -/
def isWordChar (c : Char) : Bool := c.isAlphanum || c = '_'

/-- Model of `DAILY_LOG_ENTRY_PATTERN.match(line)` (indexer.py line 22):
`^## (\d{2}:\d{2}) - Chat: (\w+)` anchored at the line start, trailing
text permitted.  Returns the two groups. -/
def match_entry_header : PyStr → Option (PyStr × PyStr)
  | '#' :: '#' :: ' ' :: h1 :: h2 :: ':' :: m1 :: m2 :: ' ' :: '-' :: ' '
      :: 'C' :: 'h' :: 'a' :: 't' :: ':' :: ' ' :: rest =>
    if h1.isDigit && h2.isDigit && m1.isDigit && m2.isDigit then
      let chatRun := rest.takeWhile isWordChar
      if chatRun = [] then none else some ([h1, h2, ':', m1, m2], chatRun)
    else none
  | _ => none

/-- The ` \(importance: ([\d.]+)\)` tail of `FACT_LINE_PATTERN`: a literal
` (importance: `, a nonempty run of digits and dots, then `)`. -/
def match_importance_tail : PyStr → Option PyStr
  | ' ' :: '(' :: 'i' :: 'm' :: 'p' :: 'o' :: 'r' :: 't' :: 'a' :: 'n'
      :: 'c' :: 'e' :: ':' :: ' ' :: rest =>
    let run := rest.takeWhile fun c => c.isDigit || c = '.'
    if run = [] then none
    else
      match rest.drop run.length with
      | ')' :: _ => some run
      | _ => none
  | _ => none

/-- The lazy `(.+?)` of `FACT_LINE_PATTERN`: the shortest nonempty content
prefix whose remainder matches the importance tail. -/
def lazy_content_split (acc : PyStr) : PyStr → Option (PyStr × PyStr)
  | [] => none
  | c :: rest =>
    match match_importance_tail rest with
    | some imp => some (acc ++ [c], imp)
    | none => lazy_content_split (acc ++ [c]) rest

/-- Model of `FACT_LINE_PATTERN.match(line)` (indexer.py lines 23-25):
`^- \*\*\[(\w+)\]\*\* (.+?) \(importance: ([\d.]+)\)`.  Returns
(category, content, importance text). -/
def match_fact_line : PyStr → Option (PyStr × PyStr × PyStr)
  | '-' :: ' ' :: '*' :: '*' :: '[' :: rest =>
    let cat := rest.takeWhile isWordChar
    if cat = [] then none
    else
      match rest.drop cat.length with
      | ']' :: '*' :: '*' :: ' ' :: rest2 =>
        match lazy_content_split [] rest2 with
        | some (cont, imp) => some (cat, cont, imp)
        | none => none
      | _ => none
  | _ => none

/-- A fact reconstructed by `MarkdownIndexer._parse_daily_log`.  The
`float(...)` conversion of the importance text is not modelled beyond the
matched literal. -/
structure ParsedFact where
  content : PyStr
  importance : PyStr
  category : PyStr
  tags : List PyStr
  source_chat_id : Option PyStr
  source_time : Option PyStr
  user_intent : Option PyStr
  outcome : Option PyStr
deriving DecidableEq, Repr

/-- The continuation-line scan of `_parse_daily_log` (indexer.py lines
160-172): over the indented lines following a fact, the last `- Tags:` /
`- Context:` / `- Outcome:` line wins. -/
def parse_sub_lines (subs : List PyStr) :
    List PyStr × Option PyStr × Option PyStr :=
  subs.foldl
    (fun (st : List PyStr × Option PyStr × Option PyStr) l =>
      let sl := pyStrip l
      if "- Tags:".toList.isPrefixOf sl then
        ((pySplitOn ',' (sl.drop 7)).map pyStrip, st.2.1, st.2.2)
      else if "- Context:".toList.isPrefixOf sl then
        (st.1, some (pyStrip (sl.drop 10)), st.2.2)
      else if "- Outcome:".toList.isPrefixOf sl then
        (st.1, st.2.1, some (pyStrip (sl.drop 10)))
      else st)
    ([], none, none)

/-- A line counts as a continuation when it starts with two spaces
(`lines[j].startswith("  ")`). -/
def isIndented (l : PyStr) : Bool := [' ', ' '].isPrefixOf l

/-- The line loop of `MarkdownIndexer._parse_daily_log` (indexer.py lines
137-192): headers update the current chat/time, fact lines emit a fact
after consuming their indented continuation lines, all other lines are
skipped.  The loop advances its index on every pass, so running it with
fuel equal to the number of lines is exact (`dropWhile` never lengthens a
list); the fuel only makes the recursion structural. -/
def parse_lines (date : PyStr) :
    Nat → List PyStr → Option PyStr → Option PyStr → List ParsedFact
  | 0, _, _, _ => []
  | _ + 1, [], _, _ => []
  | fuel + 1, line :: rest, curTime, curChat =>
    match match_entry_header line with
    | some (t, c) => parse_lines date fuel rest (some t) (some c)
    | none =>
      match match_fact_line line with
      | some (cat, cont, imp) =>
        let subs := rest.takeWhile isIndented
        let rest2 := rest.dropWhile isIndented
        let parsed := parse_sub_lines subs
        ⟨cont, imp, cat, parsed.1, curChat, curTime, parsed.2.1, parsed.2.2⟩
          :: parse_lines date fuel rest2 curTime curChat
      | none => parse_lines date fuel rest curTime curChat

/-- Model of `MarkdownIndexer._parse_daily_log` (indexer.py lines 122-194): split
the file on newlines and run the line loop.  The `date` argument only
lands in metadata. -/
def parse_daily_log (content : PyStr) (date : PyStr) : List ParsedFact :=
  let lines := pySplitOn '\n' content
  parse_lines date lines.length lines none none

-- ──────────────────────────────────────────────────────────────────────
-- Chat turn processor (src/suzent/core/chat_processor.py) with the
-- streaming bus modelled from the spec
-- ──────────────────────────────────────────────────────────────────────

/-- An SSE event of the streaming bus (spec §4.E event kinds). -/
inductive SSEEvent where
  | stream_delta (s : PyStr)
  | actionEvt
  | planningEvt
  | action_output
  | final_answer_evt (s : PyStr)
  | error_evt (s : PyStr)
deriving DecidableEq, Repr

def isFinalAnswerEvt : SSEEvent → Bool
  | .final_answer_evt _ => true
  | _ => false

/-- Modelled from the spec: `suzent/streaming.py` (`stream_agent_responses`
and the per-chat controller registry) is not under src/.  Per §4.E and §5,
`stop(chat_id)` raises the per-chat cancel signal; the agent loop observes
it at the next suspension point and stops producing events, and the
cancellation propagates up through every suspension point of the turn.
`cancelAt = some k` means the signal fires after `k` events were yielded:
the stream produces only the first `k` events and then raises out of the
consuming `async for` loop (second component `true`). -/
def stream_agent_responses (events : List SSEEvent) (cancelAt : Option Nat) :
    List SSEEvent × Bool :=
  match cancelAt with
  | some k => if k < events.length then (events.take k, true) else (events, false)
  | none => (events, false)

/-- The `full_response` capture of `ChatProcessor.process_turn`
(chat_processor.py lines 159-179): the data of the last `final_answer`
event seen, initially `""`. -/
def capture_final_answer (events : List SSEEvent) : PyStr :=
  events.foldl
    (fun acc e => match e with | .final_answer_evt s => s | _ => acc) []

/-- Model of `ChatProcessor._persist_state` (chat_processor.py lines 290-308):
append the user and assistant messages to the message log of the chat (the
agent-state bytes are updated in the same call and not tracked here). -/
def persist_state (messages : List (PyStr × PyStr)) (userContent agentContent : PyStr) :
    List (PyStr × PyStr) :=
  messages ++ [("user".toList, userContent), ("assistant".toList, agentContent)]

/-- Model of `ChatProcessor.process_turn` (chat_processor.py lines 50-206) for a
turn with no attachments: stream the agent events, then — only when the
`async for` finished without the cancellation propagating — run the
post-processing and persist the message log.  Returns the yielded events
and the resulting chat message log.  The cancelled branch skipping
persistence is the spec-modelled part (§5: the turn cleans up and skips
persistence of partial state). -/
def process_turn (messages : List (PyStr × PyStr)) (userMsg : PyStr)
    (events : List SSEEvent) (cancelAt : Option Nat) :
    List SSEEvent × List (PyStr × PyStr) :=
  let streamed := stream_agent_responses events cancelAt
  if streamed.2 then (streamed.1, messages)
  else (streamed.1, persist_state messages userMsg (capture_final_answer streamed.1))

-- ──────────────────────────────────────────────────────────────────────
-- Theorems
-- ──────────────────────────────────────────────────────────────────────

/-- C2: the daily-log writer and the rebuild grammar disagree.
`append_daily_log` wrote one fact to a fresh file (chat `alpha123` at
12:34 on 2025-06-01); parsing that file with `_parse_daily_log` yields no
facts at all, although one `{content, category, importance, tags}` tuple
was appended: the writer emits `## 12:34 <mojibake-dash> alpha123` headers
and `- [preference] User likes tea` bullets, while the grammar demands
`## 12:34 - Chat: alpha123` and
`- **[preference]** User likes tea (importance: 0.8)`. -/
theorem daily_log_rebuild_loses_appended_facts :
    parse_daily_log
      (daily_log_file "2025-06-01".toList "12:34".toList "alpha123".toList
        [⟨"User likes tea".toList, "preference".toList, "0.8".toList, []⟩])
      "2025-06-01".toList = []
    ∧ ([⟨"User likes tea".toList, "preference".toList, "0.8".toList, []⟩] :
        List FactIn) ≠ [] := by
  exact ⟨by decide, by decide⟩

/-- C8 counterexample: the empty response (produced e.g. when the stream of the
turn reports an `error` event) is recorded and ignored by
`_is_heartbeat_ok`, yet it is not `HEARTBEAT_OK` nor that token with at
most 300 characters of filler, so the claimed "if and only if" fails. -/
theorem heartbeat_ok_accepts_empty_response :
    is_heartbeat_ok [] = true ∧ ¬ claimHeartbeatOk [] := by
  refine ⟨by decide, ?_⟩
  rintro (h | ⟨t, ht, _⟩ | ⟨p, hp, _⟩)
  · exact absurd (congrArg List.length h) (by decide)
  · have := congrArg List.length ht
    simp [HEARTBEAT_OK] at this
  · have := congrArg List.length hp
    simp [HEARTBEAT_OK] at this

/-- C8 (amended): a heartbeat response is recorded and ignored iff it is
empty, exactly `HEARTBEAT_OK`, or that token with trailing filler of
whitespace-stripped length at most 300, or — only when the token is not a
prefix — with leading filler of whitespace-stripped length at most 300;
otherwise the response is handed to the notification callback when one is
set. -/
theorem heartbeat_ok_iff (r : PyStr) (hasCallback : Bool) :
    (is_heartbeat_ok r = true ↔
      (r = [] ∨ r = HEARTBEAT_OK ∨
        (∃ t, r = HEARTBEAT_OK ++ t ∧ (pyStrip t).length ≤ 300) ∨
        (¬ HEARTBEAT_OK <+: r ∧
          ∃ p, r = p ++ HEARTBEAT_OK ∧ (pyStrip p).length ≤ 300)))
    ∧ (tick_notification r hasCallback = none ↔
        (is_heartbeat_ok r = true ∨ hasCallback = false)) := by
  constructor
  · by_cases h0 : r = []
    · subst h0; simp [is_heartbeat_ok]
    · by_cases hOK : r = HEARTBEAT_OK
      · subst hOK; simp [is_heartbeat_ok]
      · rw [is_heartbeat_ok]
        simp only [h0, hOK, decide_False, Bool.or_self, if_false]
        by_cases hpre : HEARTBEAT_OK <+: r
        · obtain ⟨t, ht⟩ := hpre
          have hpre' : HEARTBEAT_OK.isPrefixOf r = true := by
            rw [List.isPrefixOf_iff_prefix]; exact ⟨t, ht⟩
          rw [if_pos hpre']
          subst ht
          rw [List.drop_left]
          constructor
          · intro hb
            exact Or.inr (Or.inr (Or.inl ⟨t, rfl, by simpa using hb⟩))
          · rintro (h | h | ⟨t2, ht2, hlen⟩ | ⟨hnp, _⟩)
            · exact h.elim
            · exact h.elim
            · have : t = t2 := by
                have := List.append_cancel_left ht2
                exact this
              subst this; simpa using hlen
            · exact absurd ⟨t, rfl⟩ hnp
        · have hpre' : HEARTBEAT_OK.isPrefixOf r = false := by
            rw [Bool.eq_false_iff]
            intro hc
            exact hpre (List.isPrefixOf_iff_prefix.mp hc)
          rw [hpre', if_neg (by simp)]
          by_cases hsuf : HEARTBEAT_OK <:+ r
          · obtain ⟨p, hp⟩ := hsuf
            have hsuf' : HEARTBEAT_OK.isSuffixOf r = true := by
              rw [List.isSuffixOf_iff_suffix]; exact ⟨p, hp⟩
            rw [if_pos hsuf']
            subst hp
            have hlen : (p ++ HEARTBEAT_OK).length - HEARTBEAT_OK.length = p.length := by
              simp
            rw [hlen, List.take_left]
            constructor
            · intro hb
              exact Or.inr (Or.inr (Or.inr ⟨hpre, p, rfl, by simpa using hb⟩))
            · rintro (h | h | ⟨t2, ht2, _⟩ | ⟨_, p2, hp2, hlen2⟩)
              · exact h.elim
              · exact h.elim
              · exact absurd ⟨t2, ht2.symm⟩ hpre
              · have : p2 = p := List.append_cancel_right hp2.symm
                subst this; simpa using hlen2
          · have hsuf' : HEARTBEAT_OK.isSuffixOf r = false := by
              rw [Bool.eq_false_iff]
              intro hc
              exact hsuf (List.isSuffixOf_iff_suffix.mp hc)
            rw [hsuf', if_neg (by simp)]
            constructor
            · intro h; exact absurd h (by simp)
            · rintro (h | h | ⟨t2, ht2, _⟩ | ⟨_, p2, hp2, _⟩)
              · exact h.elim
              · exact h.elim
              · exact absurd ⟨t2, ht2.symm⟩ hpre
              · exact absurd ⟨p2, hp2.symm⟩ hsuf
  · by_cases hok : is_heartbeat_ok r = true
    · simp [tick_notification, hok]
    · have hne : r ≠ [] := by
        intro h; subst h; exact hok (by decide)
      cases hasCallback with
      | false => simp [tick_notification, hok]
      | true => simp [tick_notification, hok, hne]

theorem serialize_step_round_trip (s : AgentStep) (h : step_wf s = true) :
    deserialize_step (serialize_step s) = s := by
  cases s with
  | action n tc mo ca obs ao fin =>
    rcases tc with _ | l <;> rcases obs with _ | o <;> rcases ao with _ | a <;>
      simp_all [step_wf, serialize_step, deserialize_step, List.take_of_length_le]
  | planning p => rfl
  | task t => rfl
  | final_answer out =>
    rcases out with _ | o <;>
      simp_all [step_wf, serialize_step, deserialize_step, List.take_of_length_le]

theorem deserialize_serialize_steps (steps : List AgentStep)
    (h : ∀ s ∈ steps, step_wf s = true) :
    deserialize_steps (serialize_steps steps) = steps := by
  induction steps with
  | nil => rfl
  | cons s rest ih =>
    have hs := serialize_step_round_trip s (h s (List.mem_cons_self s rest))
    have hrest := ih fun x hx => h x (List.mem_cons_of_mem s hx)
    simp only [serialize_steps, deserialize_steps, List.map_cons] at *
    rw [hs, hrest]

/-- C4 counterexample: an action step with empty observations (`""`) does
not round-trip: `serialize_agent` writes `None` for falsy observations, so
the restored step differs from the original in its `observations` field. -/
theorem codec_round_trip_not_exact :
    (codec_round_trip
        ⟨none, none, 3, 10, [],
          [.action 1 none none none (some []) none false]⟩
        ⟨none, none, 1, 10, [], []⟩).steps
      ≠ [AgentStep.action 1 none none none (some []) none false] := by decide

/-- C4 (amended): for every agent whose steps are within the
normalization bounds of the codec (tool-call lists and observations absent rather than
empty; observations at most 4000 characters; action outputs and
final-answer outputs at most 2000) and nonempty, decoding the encoded
state onto a freshly built agent restores exactly the original step list,
`step_number` and `max_steps` — everything else comes from the fresh
agent. -/
theorem codec_round_trip_preserves_state (a fresh : Agent)
    (hne : a.steps ≠ [])
    (hwf : ∀ s ∈ a.steps, step_wf s = true) :
    codec_round_trip a fresh =
      { fresh with
        steps := a.steps
        step_number := a.step_number
        max_steps := a.max_steps } := by
  have hmapne : serialize_steps a.steps ≠ [] := by
    unfold serialize_steps
    simpa using hne
  unfold codec_round_trip restore_from_json serialize_agent
  simp only [if_neg hmapne]
  rw [deserialize_serialize_steps a.steps hwf]

/-- Witness for the amended C4 theorem at a concrete two-step agent. -/
theorem codec_round_trip_preserves_state_witness :
    codec_round_trip
        ⟨some "m", some "inst", 4, 12, ["ToolA"],
          [.task "do it",
            .action 1 (some [⟨"tool", "args", "id1"⟩]) (some "out") none
              (some "obs".toList) (some "res".toList) true]⟩
        ⟨some "m2", some "inst2", 1, 10, ["ToolB"], []⟩ =
      ⟨some "m2", some "inst2", 4, 12, ["ToolB"],
        [.task "do it",
          .action 1 (some [⟨"tool", "args", "id1"⟩]) (some "out") none
            (some "obs".toList) (some "res".toList) true]⟩ :=
  codec_round_trip_preserves_state _ _ (by decide) (by decide)

/-- C10: `_restore_from_json` modifies only the steps of the fresh agent,
`step_number` and `max_steps`; the `model_id`, `instructions` and
`tool_names` recorded in the serialized state are never read, so the
model, instructions and tools of the restored agent come from the current
configuration. -/
theorem restore_from_json_frame (st : StateV2) (fresh : Agent)
    (mid ins : Option String) (tn : List String) :
    (restore_from_json st fresh).model_id = fresh.model_id
    ∧ (restore_from_json st fresh).instructions = fresh.instructions
    ∧ (restore_from_json st fresh).tool_names = fresh.tool_names
    ∧ (restore_from_json st fresh).step_number = st.step_number
    ∧ (restore_from_json st fresh).max_steps = st.max_steps
    ∧ restore_from_json
        { st with model_id := mid, instructions := ins, tool_names := tn } fresh
      = restore_from_json st fresh := by
  unfold restore_from_json
  exact ⟨rfl, rfl, rfl, rfl, rfl, rfl⟩

/-- C5 counterexample: the two-byte blob `b"\x80\x04"` (a pickle protocol
marker with no payload).  UTF-8 decoding raises `UnicodeDecodeError`
(`0x80` is an invalid start byte), so the JSON branch falls through;
`pickle.loads` then raises `EOFError` ("Ran out of input"), which is not
among the caught `(TypeError, AttributeError, UnpicklingError)`, so the
exception escapes `deserialize_agent` instead of `None` being returned. -/
theorem deserialize_agent_can_raise :
    deserialize_agent ⟨false, .decodeError, .raises .eofError⟩
        ⟨none, none, 1, 10, [], []⟩
      = .error .eofError := rfl

/-- C5 (amended): `deserialize_agent` returns a restored agent or `None`
for every blob except those whose unpickling raises an exception outside
`(TypeError, AttributeError, UnpicklingError)`: an escaping exception is
always exactly such an uncaught `pickle.loads` exception on a non-empty,
non-v2-JSON blob, and when every unpickle failure is of a caught class the
function never raises. -/
theorem deserialize_agent_raises_only_uncaught_unpickle (b : Blob) (fresh : Agent) :
    (∀ e, deserialize_agent b fresh = .error e →
      b.pickle = .raises e ∧ caughtByUnpickle e = false ∧
        (∀ st, b.json ≠ .v2dict st) ∧ b.isEmpty = false)
    ∧ ((∀ e, b.pickle = .raises e → caughtByUnpickle e = true) →
        ∃ r, deserialize_agent b fresh = .ok r) := by
  obtain ⟨emp, js, pk⟩ := b
  constructor
  · intro e h
    cases emp with
    | true => simp [deserialize_agent] at h
    | false =>
      cases js with
      | v2dict st => simp [deserialize_agent] at h
      | otherValue =>
        cases pk with
        | dictValue p sn ms => simp [deserialize_agent] at h
        | nonDictValue => simp [deserialize_agent] at h
        | raises e2 =>
          by_cases hc : caughtByUnpickle e2 = true
          · simp [deserialize_agent, hc] at h
          · rw [Bool.not_eq_true] at hc
            simp [deserialize_agent, hc] at h
            subst h
            exact ⟨rfl, hc, by intro st; simp, rfl⟩
      | decodeError =>
        cases pk with
        | dictValue p sn ms => simp [deserialize_agent] at h
        | nonDictValue => simp [deserialize_agent] at h
        | raises e2 =>
          by_cases hc : caughtByUnpickle e2 = true
          · simp [deserialize_agent, hc] at h
          · rw [Bool.not_eq_true] at hc
            simp [deserialize_agent, hc] at h
            subst h
            exact ⟨rfl, hc, by intro st; simp, rfl⟩
  · intro hcaught
    cases emp with
    | true => exact ⟨none, by simp [deserialize_agent]⟩
    | false =>
      cases js with
      | v2dict st =>
        exact ⟨some (restore_from_json st fresh), by simp [deserialize_agent]⟩
      | otherValue =>
        cases pk with
        | dictValue p sn ms =>
          exact ⟨some (restore_from_pickle p sn ms fresh), by simp [deserialize_agent]⟩
        | nonDictValue => exact ⟨none, by simp [deserialize_agent]⟩
        | raises e2 => exact ⟨none, by simp [deserialize_agent, hcaught e2 rfl]⟩
      | decodeError =>
        cases pk with
        | dictValue p sn ms =>
          exact ⟨some (restore_from_pickle p sn ms fresh), by simp [deserialize_agent]⟩
        | nonDictValue => exact ⟨none, by simp [deserialize_agent]⟩
        | raises e2 => exact ⟨none, by simp [deserialize_agent, hcaught e2 rfl]⟩

/-- Witness for the amended C5 theorem: a corrupt blob whose unpickling
fails with the caught `UnpicklingError` yields `.ok` (here: `None`). -/
theorem deserialize_agent_no_raise_witness :
    ∃ r, deserialize_agent ⟨false, .decodeError, .raises .unpicklingError⟩
        ⟨none, none, 1, 10, [], []⟩ = .ok r :=
  (deserialize_agent_raises_only_uncaught_unpickle
      ⟨false, .decodeError, .raises .unpicklingError⟩
      ⟨none, none, 1, 10, [], []⟩).2
    (by intro e h; injection h with h2; subst h2; decide)

/-- C3 counterexample: with the default configuration
(`max_history_steps = 20`, `max_context_tokens = 800000`) a 7-step history
whose token count exceeds the limit triggers compression, the compression
succeeds (returns `True`), yet the step count does not strictly decrease:
`keep_recent_count = 5` and the rewrite produces `1 + 1 + 5 = 7` steps
again, although compression was needed and performed. -/
theorem compression_success_without_strict_decrease :
    (compress_context
        [.task "t", .planning "p1", .planning "p2", .planning "p3",
          .planning "p4", .planning "p5", .planning "p6"]
        20 (some 800001) 800000 (some "s".toList)).1 = true
    ∧ ((compress_context
        [.task "t", .planning "p1", .planning "p2", .planning "p3",
          .planning "p4", .planning "p5", .planning "p6"]
        20 (some 800001) 800000 (some "s".toList)).2).length
      = ([.task "t", .planning "p1", .planning "p2", .planning "p3",
          .planning "p4", .planning "p5", .planning "p6"] :
          List AgentStep).length := by
  exact ⟨by decide, by decide⟩

/-- C3 (amended): a successful compression preserves step 0 and the final
recent window of `max(5, ⌊0.25 · max_history_steps⌋)` steps, and yields
exactly `keep_recent_count + 2` steps, never more than before; the count
strictly decreases exactly when the previous count exceeded
`keep_recent_count + 2` (equality occurs at `keep_recent_count + 2` steps,
e.g. for token-triggered compressions of short histories). -/
theorem compress_context_contraction
    (steps : List AgentStep) (mhs : Nat) (monitorTokens : Option Nat)
    (maxCtx : Nat) (summary : Option PyStr) (ns : List AgentStep)
    (h : compress_context steps mhs monitorTokens maxCtx summary = (true, ns)) :
    ns.length = keep_recent_count mhs + 2
    ∧ ns.length ≤ steps.length
    ∧ ns.head? = steps.head?
    ∧ ns.drop 2 = steps.drop (steps.length - keep_recent_count mhs)
    ∧ (keep_recent_count mhs + 2 < steps.length → ns.length < steps.length) := by
  unfold compress_context at h
  split_ifs at h with h0 h1
  · injection h with hfst hsnd
    exact Bool.noConfusion hfst
  · rcases hp : perform_compression steps mhs summary with _ | ns2
    · rw [hp] at h
      injection h with hfst hsnd
      exact Bool.noConfusion hfst
    · rw [hp] at h
      have hns : ns2 = ns := by
        have := (Prod.mk.injEq true ns2 true ns).mp h
        exact this.2
      subst hns
      unfold perform_compression at hp
      dsimp only at hp
      by_cases g1 : steps.length ≤ keep_recent_count mhs + 1
      · rw [if_pos g1] at hp
        exact Option.noConfusion hp
      · rw [if_neg g1] at hp
        by_cases g2 : steps.length - keep_recent_count mhs ≤ 1
        · rw [if_pos g2] at hp
          exact Option.noConfusion hp
        · rw [if_neg g2] at hp
          rcases steps with _ | ⟨s0, rest⟩
          · exact absurd rfl h0
          · cases summary with
            | none => exact Option.noConfusion hp
            | some s =>
              injection hp with hp2
              subst hp2
              simp only [List.length_cons] at g1 g2
              refine ⟨?_, ?_, rfl, rfl, ?_⟩
              · simp only [List.length_cons, List.length_drop]
                omega
              · simp only [List.length_cons, List.length_drop]
                omega
              · intro hlt
                simp only [List.length_cons, List.length_drop]
                simp only [List.length_cons] at hlt
                omega
  · injection h with hfst hsnd
    exact Bool.noConfusion hfst

/-- Witness for the amended C3 theorem: a token-triggered compression of
an 8-step history under the default configuration. -/
theorem compress_context_contraction_witness :
    ([AgentStep.task "t", summary_step 8 "s".toList, .planning "p3",
        .planning "p4", .planning "p5", .planning "p6", .planning "p7"] :
      List AgentStep).length = keep_recent_count 20 + 2
    ∧ ([AgentStep.task "t", summary_step 8 "s".toList, .planning "p3",
        .planning "p4", .planning "p5", .planning "p6", .planning "p7"] :
      List AgentStep).length ≤
        ([AgentStep.task "t", .planning "p1", .planning "p2", .planning "p3",
          .planning "p4", .planning "p5", .planning "p6", .planning "p7"] :
          List AgentStep).length
    ∧ ([AgentStep.task "t", summary_step 8 "s".toList, .planning "p3",
        .planning "p4", .planning "p5", .planning "p6", .planning "p7"] :
      List AgentStep).head? =
        ([AgentStep.task "t", .planning "p1", .planning "p2", .planning "p3",
          .planning "p4", .planning "p5", .planning "p6", .planning "p7"] :
          List AgentStep).head?
    ∧ ([AgentStep.task "t", summary_step 8 "s".toList, .planning "p3",
        .planning "p4", .planning "p5", .planning "p6", .planning "p7"] :
      List AgentStep).drop 2 =
        ([AgentStep.task "t", .planning "p1", .planning "p2", .planning "p3",
          .planning "p4", .planning "p5", .planning "p6", .planning "p7"] :
          List AgentStep).drop
          (([AgentStep.task "t", .planning "p1", .planning "p2", .planning "p3",
            .planning "p4", .planning "p5", .planning "p6", .planning "p7"] :
            List AgentStep).length - keep_recent_count 20)
    ∧ (keep_recent_count 20 + 2 <
        ([AgentStep.task "t", .planning "p1", .planning "p2", .planning "p3",
          .planning "p4", .planning "p5", .planning "p6", .planning "p7"] :
          List AgentStep).length →
        ([AgentStep.task "t", summary_step 8 "s".toList, .planning "p3",
          .planning "p4", .planning "p5", .planning "p6", .planning "p7"] :
          List AgentStep).length <
          ([AgentStep.task "t", .planning "p1", .planning "p2", .planning "p3",
            .planning "p4", .planning "p5", .planning "p6", .planning "p7"] :
            List AgentStep).length) :=
  compress_context_contraction
    [.task "t", .planning "p1", .planning "p2", .planning "p3",
      .planning "p4", .planning "p5", .planning "p6", .planning "p7"]
    20 (some 800001) 800000 (some "s".toList)
    [.task "t", summary_step 8 "s".toList, .planning "p3",
      .planning "p4", .planning "p5", .planning "p6", .planning "p7"]
    (by decide)

/-- C6 counterexample: a cron execution whose SSE stream reports an
`error` event is a failed execution, but the retry policy is not applied:
with `retry_count = 0` the claim demands `next_run_at = now + 2^0` and
`retry_count = 1`; instead the job keeps the cron-advanced schedule, its
retry count stays 0, only `last_error` records the failure, and the run
row is even finished as a success. -/
theorem sse_error_execution_not_retried :
    (execute_job ⟨true, 0, some 0, none, none, none⟩ false false
        100 (some 200) (.events [.error_event "boom".toList])).job.retry_count = 0
    ∧ (execute_job ⟨true, 0, some 0, none, none, none⟩ false false
        100 (some 200) (.events [.error_event "boom".toList])).job.next_run_at
      = some 200
    ∧ (execute_job ⟨true, 0, some 0, none, none, none⟩ false false
        100 (some 200) (.events [.error_event "boom".toList])).job.next_run_at
      ≠ some (100 + 2 ^ 0)
    ∧ (execute_job ⟨true, 0, some 0, none, none, none⟩ false false
        100 (some 200) (.events [.error_event "boom".toList])).job.active = true
    ∧ (execute_job ⟨true, 0, some 0, none, none, none⟩ false false
        100 (some 200) (.events [.error_event "boom".toList])).job.last_error
      = some "boom".toList
    ∧ (execute_job ⟨true, 0, some 0, none, none, none⟩ false false
        100 (some 200) (.events [.error_event "boom".toList])).run
      = some ⟨.success, some [], some "boom".toList⟩ := by decide

/-- C6 (amended): the retry-with-backoff policy applies exactly to
executions that raise: the error is recorded, `next_run_at` becomes
`now + 2^retry_count` minutes with `retry_count` incremented when
`retry_count < 5`, and the job is deactivated otherwise.  Executions whose
SSE stream reports an `error` event are not retried: the error is
recorded in `last_error`, `retry_count` stays 0, `next_run_at` keeps the
cron-advanced value, and the job stays active. -/
theorem failed_execution_policy (job : CronJobRow) (ann : Bool)
    (now nxt : Nat) (msg : PyStr) (evs : List TurnEvent) (errContent : PyStr)
    (hactive : job.active = true) :
    (execute_job job ann false now (some nxt) (.raisesExc msg) =
      if job.retry_count < 5 then
        ⟨{ job with
            last_run_at := some now
            next_run_at := some (now + 2 ^ job.retry_count)
            retry_count := job.retry_count + 1
            last_error := some msg },
          some ⟨.error, none, some msg⟩, []⟩
      else
        ⟨{ job with
            last_run_at := some now
            next_run_at := some nxt
            retry_count := 0
            last_error := some ("Max retries exceeded: ".toList ++ msg)
            active := false },
          some ⟨.error, none, some msg⟩, []⟩)
    ∧ (run_chat_turn_loop [] evs = ([], some errContent) →
        execute_job job ann false now (some nxt) (.events evs) =
          ⟨{ job with
              last_run_at := some now
              next_run_at := some nxt
              retry_count := 0
              last_error := some errContent
              last_result := some [] },
            some ⟨.success, some [], some errContent⟩, []⟩) := by
  obtain ⟨ja, jr, jn, jlr, jlres, jlerr⟩ := job
  have hja : ja = true := hactive
  subst hja
  constructor
  · unfold execute_job handle_retry
    by_cases h5 : jr < 5 <;> simp [h5]
  · intro herr
    simp [execute_job, herr]

/-- Witness for the amended C6 theorem: a raising execution at
`retry_count = 3` and an SSE-error execution, both on a concrete job. -/
theorem failed_execution_policy_witness :
    (execute_job ⟨true, 3, some 0, none, none, none⟩ false false
        100 (some 200) (.raisesExc "x".toList) =
      if (3 : Nat) < 5 then
        ⟨⟨true, 3 + 1, some (100 + 2 ^ 3), some 100, none, some "x".toList⟩,
          some ⟨.error, none, some "x".toList⟩, []⟩
      else
        ⟨⟨false, 0, some 200, some 100, none,
            some ("Max retries exceeded: ".toList ++ "x".toList)⟩,
          some ⟨.error, none, some "x".toList⟩, []⟩)
    ∧ (run_chat_turn_loop [] [.error_event "boom".toList]
          = ([], some "boom".toList) →
        execute_job ⟨true, 3, some 0, none, none, none⟩ false false
            100 (some 200) (.events [.error_event "boom".toList]) =
          ⟨⟨true, 0, some 200, some 100, some [], some "boom".toList⟩,
            some ⟨.success, some [], some "boom".toList⟩, []⟩) := by
  have h := failed_execution_policy ⟨true, 3, some 0, none, none, none⟩ false
    100 200 "x".toList [.error_event "boom".toList] "boom".toList rfl
  exact h

/-- C7 counterexample: after a failed execution with `retry_count = 0` of
an hourly job (`0 * * * *`, modelled by minute timestamps divisible by
60), started at minute 30 with correct croniter answer 60, the job field
`next_run_at` is the backoff value 31 — strictly greater than the start,
but not the first cron-valid timestamp after it. -/
theorem retry_backoff_not_cron_valid :
    isFirstValidAfter hourlyValid 30 60
    ∧ (execute_job ⟨true, 0, some 0, none, none, none⟩ false false 30 (some 60)
        (.raisesExc "x".toList)).job.next_run_at = some 31
    ∧ ¬ isFirstValidAfter hourlyValid 30 31 := by decide

/-- C7 (amended): `next_run_at` is recomputed from the cron expression
before the job body executes, and after any execution it is strictly
greater than the start time; for executions that do not raise it is the
first cron-valid timestamp after the start; for raising executions it is
the backoff `start + 2^retry_count` (not necessarily cron-valid) when
`retry_count < 5`, and otherwise the pre-advanced cron value with the job
deactivated. -/
theorem next_run_at_after_execution (valid : Nat → Bool) (job : CronJobRow)
    (ann : Bool) (now nxt : Nat) (outcome : TurnOutcome)
    (hactive : job.active = true)
    (hnext : isFirstValidAfter valid now nxt) :
    ∃ m, (execute_job job ann false now (some nxt) outcome).job.next_run_at = some m
      ∧ now < m
      ∧ (∀ evs, outcome = .events evs → m = nxt ∧ isFirstValidAfter valid now m)
      ∧ (∀ msg, outcome = .raisesExc msg →
          (job.retry_count < 5 → m = now + 2 ^ job.retry_count)
          ∧ (5 ≤ job.retry_count →
              m = nxt ∧ (execute_job job ann false now (some nxt) outcome).job.active
                = false)) := by
  obtain ⟨ja, jr, jn, jlr, jlres, jlerr⟩ := job
  have hja : ja = true := hactive
  subst hja
  cases outcome with
  | events evs =>
    rcases hrc : run_chat_turn_loop [] evs with ⟨resp, err⟩
    cases err with
    | none =>
      refine ⟨nxt, ?_, hnext.2.1, ?_, ?_⟩
      · simp [execute_job, hrc]
      · intro _ _; exact ⟨rfl, hnext⟩
      · intro msg hmsg; exact absurd hmsg (by simp)
    | some errContent =>
      refine ⟨nxt, ?_, hnext.2.1, ?_, ?_⟩
      · simp [execute_job, hrc]
      · intro _ _; exact ⟨rfl, hnext⟩
      · intro msg hmsg; exact absurd hmsg (by simp)
  | raisesExc msg =>
    by_cases h5 : jr < 5
    · refine ⟨now + 2 ^ jr, ?_, ?_, ?_, ?_⟩
      · simp [execute_job, handle_retry, h5]
      · have hpow : 0 < 2 ^ jr := pow_pos (by norm_num) jr
        omega
      · intro evs hevs; exact absurd hevs (by simp)
      · intro msg2 hmsg
        refine ⟨fun _ => rfl, fun hge => absurd h5 (by dsimp only at hge; omega)⟩
    · refine ⟨nxt, ?_, hnext.2.1, ?_, ?_⟩
      · simp [execute_job, handle_retry, h5]
      · intro evs hevs; exact absurd hevs (by simp)
      · intro msg2 hmsg
        refine ⟨fun hlt => absurd hlt h5, fun _ => ⟨rfl, ?_⟩⟩
        simp [execute_job, handle_retry, h5]

/-- Witness for the amended C7 theorem: a successful execution of the
hourly job started at minute 30, whose cron-advanced `next_run_at` is 60. -/
theorem next_run_at_after_execution_witness :
    ∃ m, (execute_job ⟨true, 0, some 0, none, none, none⟩ false false 30 (some 60)
        (.events [.final_answer "done".toList])).job.next_run_at = some m
      ∧ 30 < m
      ∧ (∀ evs, TurnOutcome.events [TurnEvent.final_answer "done".toList]
            = .events evs → m = 60 ∧ isFirstValidAfter hourlyValid 30 m)
      ∧ (∀ msg, TurnOutcome.events [TurnEvent.final_answer "done".toList]
            = .raisesExc msg →
          ((⟨true, 0, some 0, none, none, none⟩ : CronJobRow).retry_count < 5 →
            m = 30 + 2 ^ (⟨true, 0, some 0, none, none, none⟩ : CronJobRow).retry_count)
          ∧ (5 ≤ (⟨true, 0, some 0, none, none, none⟩ : CronJobRow).retry_count →
              m = 60 ∧ (execute_job ⟨true, 0, some 0, none, none, none⟩ false false
                  30 (some 60)
                  (.events [.final_answer "done".toList])).job.active = false)) :=
  next_run_at_after_execution hourlyValid ⟨true, 0, some 0, none, none, none⟩
    false 30 60 (.events [.final_answer "done".toList]) rfl (by decide)

/-- C9: `invoke` pairs request and response by `request_id` under the
default 30-second timeout: a resolution can only come from a well-formed
result message carrying exactly the id of this request that arrived before the
deadline; when every result message on the wire is malformed or for a
different id and no disconnect happens, the call times out; `close` marks
the node disconnected and fails every pending not-yet-done future with
`ConnectionError`; and `handle_message` never touches a future whose id
differs from the `request_id` of the message. -/
theorem invoke_pairs_by_request_id (rid : String) (t0 : Nat)
    (evs : List (Nat × WireEvent)) (st : NodeState) :
    DEFAULT_INVOKE_TIMEOUT = 30
    ∧ (∀ s r e, invoke_outcome rid t0 DEFAULT_INVOKE_TIMEOUT evs = .resolved s r e →
        ∃ t, (t, WireEvent.msg (.result rid true s r e)) ∈ evs ∧ t < t0 + 30)
    ∧ ((∀ p ∈ evs, ∀ rid2 wf succ res err,
          p.2 = WireEvent.msg (.result rid2 wf succ res err) →
            wf = false ∨ rid2 ≠ rid) →
        (∀ p ∈ evs, p.2 ≠ WireEvent.closeEvt) →
        invoke_outcome rid t0 DEFAULT_INVOKE_TIMEOUT evs = .timeoutErr)
    ∧ ((close_node st).statusConnected = false
        ∧ ∀ id2 fs, (id2, fs) ∈ st.futures → id2 ∈ st.pending →
            fs = .waiting →
            (id2, FutureState.failed .connectionError) ∈ (close_node st).futures)
    ∧ (∀ rid2 wf succ res err, ∀ p ∈ st.futures, p.1 ≠ rid2 →
        p ∈ (handle_message st (.result rid2 wf succ res err)).futures) := by
  refine ⟨rfl, ?_, ?_, ⟨rfl, ?_⟩, ?_⟩
  · intro s r e h
    induction evs with
    | nil => exact absurd h (by simp [invoke_outcome])
    | cons p rest ih =>
      obtain ⟨t, ev⟩ := p
      rw [invoke_outcome.eq_def] at h
      dsimp only at h
      by_cases ht : t0 + DEFAULT_INVOKE_TIMEOUT ≤ t
      · rw [if_pos ht] at h
        exact absurd h (by simp)
      · rw [if_neg ht] at h
        cases ev with
        | closeEvt => exact absurd h (by simp)
        | msg m =>
          cases m with
          | result rid2 wf succ res err =>
            dsimp only at h
            by_cases hm : wf = true ∧ rid2 = rid
            · rw [if_pos hm] at h
              injection h with h1 h2 h3
              subst h1; subst h2; subst h3
              obtain ⟨hwf, hrid⟩ := hm
              subst hwf; subst hrid
              exact ⟨t, List.mem_cons_self _ _, by simpa [DEFAULT_INVOKE_TIMEOUT] using ht⟩
            · rw [if_neg hm] at h
              obtain ⟨t2, hmem, hlt⟩ := ih h
              exact ⟨t2, List.mem_cons_of_mem _ hmem, hlt⟩
          | pong =>
            obtain ⟨t2, hmem, hlt⟩ := ih h
            exact ⟨t2, List.mem_cons_of_mem _ hmem, hlt⟩
          | eventMsg =>
            obtain ⟨t2, hmem, hlt⟩ := ih h
            exact ⟨t2, List.mem_cons_of_mem _ hmem, hlt⟩
          | unknownType =>
            obtain ⟨t2, hmem, hlt⟩ := ih h
            exact ⟨t2, List.mem_cons_of_mem _ hmem, hlt⟩
  · intro hres hclose
    induction evs with
    | nil => rfl
    | cons p rest ih =>
      obtain ⟨t, ev⟩ := p
      have ihrest := ih (fun q hq => hres q (List.mem_cons_of_mem _ hq))
        (fun q hq => hclose q (List.mem_cons_of_mem _ hq))
      rw [invoke_outcome.eq_def]
      dsimp only
      by_cases ht : t0 + DEFAULT_INVOKE_TIMEOUT ≤ t
      · rw [if_pos ht]
      · rw [if_neg ht]
        cases ev with
        | closeEvt =>
          exact absurd rfl (hclose (t, .closeEvt) (List.mem_cons_self _ _))
        | msg m =>
          cases m with
          | result rid2 wf succ res err =>
            have hbad := hres (t, .msg (.result rid2 wf succ res err))
              (List.mem_cons_self _ _) rid2 wf succ res err rfl
            have hm : ¬ (wf = true ∧ rid2 = rid) := by
              rcases hbad with hwf | hrid
              · rintro ⟨h1, -⟩; rw [hwf] at h1; exact Bool.noConfusion h1
              · rintro ⟨-, h2⟩; exact hrid h2
            dsimp only
            rw [if_neg hm]
            exact ihrest
          | pong => exact ihrest
          | eventMsg => exact ihrest
          | unknownType => exact ihrest
  · intro id2 fs hmem hpend hwait
    subst hwait
    have := List.mem_map_of_mem
      (fun p => if p.1 ∈ st.pending ∧ p.2 = FutureState.waiting then
        (p.1, FutureState.failed .connectionError) else p) hmem
    simpa [close_node, hpend] using this
  · intro rid2 wf succ res err p hmem hne
    rw [handle_message]
    by_cases hwf : ¬ wf = true
    · rw [if_pos hwf]
      exact hmem
    · rw [if_neg hwf]
      by_cases hpend : rid2 ∈ st.pending
      · rw [if_pos hpend]
        have := List.mem_map_of_mem
          (fun q => if q.1 = rid2 ∧ q.2 = FutureState.waiting then
            (q.1, FutureState.resolved succ res err) else q) hmem
        have hq : (if p.1 = rid2 ∧ p.2 = FutureState.waiting then
            (p.1, FutureState.resolved succ res err) else p) = p := by
          rw [if_neg]
          rintro ⟨h1, -⟩
          exact hne h1
        simp only [hq] at this
        exact this
      · rw [if_neg hpend]
        exact hmem

/-- Witness for the C9 theorem: its timeout-constant clause at concrete
arguments. -/
theorem invoke_pairs_by_request_id_witness : DEFAULT_INVOKE_TIMEOUT = 30 :=
  (invoke_pairs_by_request_id "r1" 0 [] ⟨true, [], []⟩).1

/-- C1: stopping an active turn mid-stream (spec-modelled streaming bus;
persistence from chat_processor.py) terminates the stream with no
`final_answer` event and skips `_persist_state`: for a new chat the persisted
message log still has length 0.  The hypothesis that no `final_answer`
occurs before the last event is the §4.E ordering guarantee ("the
`final_answer` event, if any, is always the last non-error event"). -/
theorem stop_mid_stream_no_final_answer_no_persist
    (events : List SSEEvent) (k : Nat) (userMsg : PyStr)
    (hk : k < events.length)
    (hlast : ∀ e ∈ events.dropLast, isFinalAnswerEvt e = false) :
    (∀ e ∈ (process_turn [] userMsg events (some k)).1, isFinalAnswerEvt e = false)
    ∧ (process_turn [] userMsg events (some k)).2.length = 0 := by
  have hstream : stream_agent_responses events (some k) = (events.take k, true) := by
    simp [stream_agent_responses, hk]
  have hpt : process_turn [] userMsg events (some k) = (events.take k, []) := by
    rw [process_turn, hstream]
    simp
  rw [hpt]
  refine ⟨?_, rfl⟩
  intro e he
  have htake : (events.dropLast).take k = events.take k := by
    rw [List.dropLast_eq_take, List.take_take]
    congr 1
    omega
  rw [← htake] at he
  exact hlast e (List.take_subset k _ he)

/-- Witness for the C1 theorem: a two-event stream cancelled after the
first frame. -/
theorem stop_mid_stream_witness :
    (∀ e ∈ (process_turn [] "Hello".toList
        [.stream_delta "h".toList, .final_answer_evt "hi".toList] (some 1)).1,
      isFinalAnswerEvt e = false)
    ∧ (process_turn [] "Hello".toList
        [.stream_delta "h".toList, .final_answer_evt "hi".toList] (some 1)).2.length
      = 0 :=
  stop_mid_stream_no_final_answer_no_persist
    [.stream_delta "h".toList, .final_answer_evt "hi".toList] 1 "Hello".toList
    (by decide) (by decide)

end Suzent
